import Mathlib

/-!
Verification development for the PDF structure extractor (`main.py`).

The extractor reads a PDF as pages of layout blocks (each block a list of
lines, each line a list of styled text runs), derives per-document font
statistics, classifies blocks as headings, detects form documents and
selects a title.  We embed the decision core shallowly:

* strings are Lean `String`s (Python `str.strip()` is modelled by
  `pyStrip`, `str.split()` by `pySplit`, both over `List Char`);
* Python `re` patterns used by the code are hand-compiled to character
  scanners below; every scanner is annotated with the regex it models.
  Python's Unicode classes (`\d`, `\s`, `\w`, `str.isupper`) are modelled
  by their ASCII cores, which is exact on the inputs considered here;
* font sizes are exact rationals (the code only adds, averages and
  compares them; the float literal `0.4` is modelled as `2/5`);
* the `fitz`/`pdfplumber` decoding layer is an external collaborator: a
  document is given directly as the nested page/block/line/span data the
  code walks.  Blocks without a `"lines"` key (images) are skipped by the
  code unseen, so documents carry text blocks only; the `bbox` field is
  stored by the code but never read downstream and is omitted;
* `max()` over an empty sequence raises `ValueError` in Python; functions
  that can hit it return `Option` and yield `none` there;
* the constructor's `self.heading_patterns` list and the
  `extract_tables_and_data` method are never used by the title/outline
  pipeline and are not modelled.
-/

set_option maxRecDepth 2500

namespace PDFX

/-! ## Character classes (ASCII cores of Python's Unicode classes) -/

def isDigitCh (c : Char) : Bool := '0' ≤ c && c ≤ '9'

def isUpperCh (c : Char) : Bool := 'A' ≤ c && c ≤ 'Z'

def isLowerCh (c : Char) : Bool := 'a' ≤ c && c ≤ 'z'

def isAlphaCh (c : Char) : Bool := isUpperCh c || isLowerCh c

def isWsCh (c : Char) : Bool := c = ' ' || c = '\t' || c = '\n' || c = '\r'

def isWordCh (c : Char) : Bool := isAlphaCh c || isDigitCh c || c = '_'

/-! ## String helpers modelling Python built-ins -/

/-- Python `str.strip()` on the underlying character list. -/
def trimL (cs : List Char) : List Char :=
  ((cs.dropWhile isWsCh).reverse.dropWhile isWsCh).reverse

/-- Python `str.strip()`. -/
def pyStrip (s : String) : String := ⟨trimL s.data⟩

/-- Longest whitespace-free run at the head: `(word, remainder)`. -/
def takeWord : List Char → List Char × List Char
  | [] => ([], [])
  | c :: rest =>
    if isWsCh c then ([], c :: rest)
    else
      let (w, r) := takeWord rest
      (c :: w, r)

/-- Fuelled worker for `pySplit`; fuel bounds the number of steps and is
always sufficient when it starts at the list length. -/
def splitWsFuel : Nat → List Char → List (List Char)
  | 0, _ => []
  | _ + 1, [] => []
  | fuel + 1, c :: rest =>
    if isWsCh c then splitWsFuel fuel rest
    else
      let (w, r) := takeWord rest
      (c :: w) :: splitWsFuel fuel r

def splitWsL (cs : List Char) : List (List Char) := splitWsFuel cs.length cs

/-- Python `str.split()` (split on whitespace runs, no empty words). -/
def pySplit (s : String) : List String := (splitWsL s.data).map (fun w => ⟨w⟩)

/-- Python `' '.join(words)`. -/
def joinSp : List String → String
  | [] => ""
  | [w] => w
  | w :: ws => w ++ " " ++ joinSp ws

def lastChar : List Char → Option Char
  | [] => none
  | [c] => some c
  | _ :: rest => lastChar rest

/-- Python `text.endswith(c)` for a single character. -/
def endsWithCh (s : String) (c : Char) : Bool := lastChar s.data == some c

/-! ## Scanner combinators for the hand-compiled regexes

`eatRun p` consumes a non-empty maximal run of `p`-characters (the greedy
`p+`; in every use below the follow set is disjoint from `p`, so greedy
matching is exact).  `eatPre` consumes a literal, `eatIf` one character,
`peekP` looks ahead without consuming, `eatEnd` accepts only the end of
input (the regex `$`). -/

def eatRun (p : Char → Bool) : List Char → Option (List Char)
  | [] => none
  | c :: rest => if p c then some ((c :: rest).dropWhile p) else none

def eatPre (pre : String) (cs : List Char) : Option (List Char) :=
  if pre.data.isPrefixOf cs then some (cs.drop pre.length) else none

def eatIf (p : Char → Bool) : List Char → Option (List Char)
  | [] => none
  | c :: rest => if p c then some rest else none

def eatCh (a : Char) : List Char → Option (List Char) :=
  eatIf (fun c => c = a)

def peekP (p : Char → Bool) : List Char → Option (List Char)
  | [] => none
  | c :: rest => if p c then some (c :: rest) else none

def eatEnd : List Char → Option (List Char)
  | [] => some []
  | _ :: _ => none

/-- Does `p` hold on some suffix?  Models an unanchored `re.search`. -/
def scanAny (p : List Char → Bool) : List Char → Bool
  | [] => p []
  | c :: rest => p (c :: rest) || scanAny p rest

/-- Like `scanAny` but each position also sees the preceding character,
for word-boundary (`\b`) checks. -/
def scanPrev (p : Option Char → List Char → Bool) : Option Char → List Char → Bool
  | prev, [] => p prev []
  | prev, c :: rest => p prev (c :: rest) || scanPrev p (some c) rest

def isWordOpt : Option Char → Bool
  | some c => isWordCh c
  | none => false

def headIsWord : List Char → Bool
  | c :: _ => isWordCh c
  | [] => false

/-- Python `sub in s` (substring containment). -/
def containsSub (pat cs : List Char) : Bool :=
  scanAny (fun t => pat.isPrefixOf t) cs

/-- Python `s.count(sub)`: non-overlapping occurrences, scanned left to
right (`s.count('')` is `len(s) + 1`).  Fuelled; the fuel is always
sufficient at `cs.length + 1`. -/
def countSubFuel (pat : List Char) : Nat → List Char → Nat
  | 0, _ => 0
  | fuel + 1, cs =>
    if pat.isPrefixOf cs then
      1 + countSubFuel pat fuel (cs.drop pat.length)
    else
      match cs with
      | [] => 0
      | _ :: rest => countSubFuel pat fuel rest

def countSub (pat cs : List Char) : Nat :=
  if pat.isEmpty then cs.length + 1 else countSubFuel pat (cs.length + 1) cs

/-- Digit run at the head: `(length, remainder)`. -/
def digitRun : List Char → Nat × List Char
  | [] => (0, [])
  | c :: rest =>
    if isDigitCh c then
      let (n, r) := digitRun rest
      (n + 1, r)
    else (0, c :: rest)

/-! ## Hand-compiled regexes of `is_likely_heading`

Each definition names the Python pattern it models.  Anchored `re.match`
patterns start at the head of the list; `re.search` patterns scan. -/

/-- Regex `^\d+[\.\,]\d+` (via `re.search`, but anchored by `^`). -/
def startNumDotNum (cs : List Char) : Bool :=
  ((eatRun isDigitCh cs).bind (eatIf (fun c => c = '.' || c = ','))
    |>.bind (peekP isDigitCh)).isSome

/-- Regex `^\d+\.\s+[A-Z]` (numbered fields like `1. Name`). -/
def matchNumDotUpper (cs : List Char) : Bool :=
  ((eatRun isDigitCh cs).bind (eatCh '.') |>.bind (eatRun isWsCh)
    |>.bind (peekP isUpperCh)).isSome

/-- Regex `^\d+\.\d+\s+[A-Z]` (section numbers like `2.1 Intended Audience`). -/
def matchNumDotNumUpper (cs : List Char) : Bool :=
  ((eatRun isDigitCh cs).bind (eatCh '.') |>.bind (eatRun isDigitCh)
    |>.bind (eatRun isWsCh) |>.bind (peekP isUpperCh)).isSome

/-- Regex `^\d+\.\d+\s+`. -/
def matchNumDotNumSp (cs : List Char) : Bool :=
  ((eatRun isDigitCh cs).bind (eatCh '.') |>.bind (eatRun isDigitCh)
    |>.bind (eatRun isWsCh)).isSome

/-- Boundary test for `\b` placed before a token that begins at the scan
position: the boundary holds iff exactly one side is a word character. -/
def boundaryBefore (prev : Option Char) (tok : String) : Bool :=
  match tok.data with
  | c :: _ => isWordCh c != isWordOpt prev
  | [] => false

/-- One position of regex `\b(Rs\.|USD|\$|€|£|%)\s*$`. -/
def currencyHere (prev : Option Char) (cs : List Char) : Bool :=
  ["Rs.", "USD", "$", "€", "£", "%"].any (fun tok =>
    match eatPre tok cs with
    | some rest => boundaryBefore prev tok && rest.all isWsCh
    | none => false)

/-- Regex `\b(Rs\.|USD|\$|€|£|%)\s*$` via `re.search`. -/
def searchCurrencyEnd (cs : List Char) : Bool := scanPrev currencyHere none cs

/-- Word-token occurrence with `\b` on both sides; every token starts and
ends with a word character, so both boundaries reduce to the neighbour
being a non-word character (or the edge of the string). -/
def wordTokHere (toks : List String) (prev : Option Char) (cs : List Char) : Bool :=
  toks.any (fun tok =>
    match eatPre tok cs with
    | some rest => !isWordOpt prev && !headIsWord rest
    | none => false)

/-- Regex `\b(w1|w2|…)\b` via `re.search`, for a list of word tokens. -/
def fieldNounSearch (toks : List String) (cs : List Char) : Bool :=
  scanPrev (wordTokHere toks) none cs

/-- The field nouns of the heading hard-reject
`\b(Name|Designation|Date|Amount|Address|Age|Gender|Phone|Email|ID|Number)\b`. -/
def headingNouns : List String :=
  ["Name", "Designation", "Date", "Amount", "Address", "Age", "Gender",
   "Phone", "Email", "ID", "Number"]

/-- The extra nouns the form detector adds to the same alternation. -/
def formNouns : List String :=
  headingNouns ++
  ["Servant", "PAY", "advance", "permanent", "temporary", "Home", "Town",
   "Whether", "grant", "LTC"]

def dateSep (c : Char) : Bool := c = '/' || c = '-'

/-- One position of regex `\b\d{1,2}[SEP]\d{1,2}[SEP]\d{2,4}\b`.  The digit
counts are forced by the separators, so `\d{1,2}` holds iff the digit run
has length 1 or 2, and the final `\d{2,4}\b` holds iff the final run has
length 2–4 and is followed by a non-word character or the end. -/
def dateHere (prev : Option Char) (cs : List Char) : Bool :=
  !isWordOpt prev &&
  (let (r1, t1) := digitRun cs
   decide (1 ≤ r1) && decide (r1 ≤ 2) &&
   match t1 with
   | c :: t2 =>
     dateSep c &&
     (let (r2, t3) := digitRun t2
      decide (1 ≤ r2) && decide (r2 ≤ 2) &&
      match t3 with
      | d :: t4 =>
        dateSep d &&
        (let (r3, t5) := digitRun t4
         decide (2 ≤ r3) && decide (r3 ≤ 4) && !headIsWord t5)
      | [] => false)
   | [] => false)

/-- Regex `\b\d{1,2}[SEP]\d{1,2}[SEP]\d{2,4}\b` via `re.search`. -/
def searchDate (cs : List Char) : Bool := scanPrev dateHere none cs

/-- One position of the boundary-free date core of
`.*\d{1,2}[SEP]\d{1,2}[SEP]\d{2,4}.*`: the trailing `{2,4}.*` only needs a
run of at least two digits. -/
def dateLooseHere (cs : List Char) : Bool :=
  let (r1, t1) := digitRun cs
  decide (1 ≤ r1) && decide (r1 ≤ 2) &&
  match t1 with
  | c :: t2 =>
    dateSep c &&
    (let (r2, t3) := digitRun t2
     decide (1 ≤ r2) && decide (r2 ≤ 2) &&
     match t3 with
     | d :: t4 => dateSep d && decide (2 ≤ (digitRun t4).1)
     | [] => false)
  | [] => false

/-- Regex `.*\d{1,2}[SEP]\d{1,2}[SEP]\d{2,4}.*` via `re.match`; block texts
never contain newlines, so `.*` reduces the pattern to an unanchored scan. -/
def dateAnywhere (cs : List Char) : Bool := scanAny dateLooseHere cs

/-! ### Strong heading patterns (`strong_patterns`) -/

/-- Regex `^[A-Z][A-Z\s]{5,}$`. -/
def allCapsStrong (cs : List Char) : Bool :=
  match cs with
  | c :: rest =>
    isUpperCh c && decide (5 ≤ rest.length) &&
    rest.all (fun d => isUpperCh d || isWsCh d)
  | [] => false

/-- Regex `^<lit>\s+\d+` for the `Chapter`/`Section`/`Part` indicators. -/
def litNum (lit : String) (cs : List Char) : Bool :=
  ((eatPre lit cs).bind (eatRun isWsCh) |>.bind (peekP isDigitCh)).isSome

/-- Regex `^[IVX]+\.\s+[A-Z]` (Roman numeral headings). -/
def romanHeading (cs : List Char) : Bool :=
  ((eatRun (fun c => c = 'I' || c = 'V' || c = 'X') cs).bind (eatCh '.')
    |>.bind (eatRun isWsCh) |>.bind (peekP isUpperCh)).isSome

/-- Regex `^Appendix\s+[A-Z0-9]`. -/
def matchAppendix (cs : List Char) : Bool :=
  ((eatPre "Appendix" cs).bind (eatRun isWsCh)
    |>.bind (peekP (fun c => isUpperCh c || isDigitCh c))).isSome

/-- Regex `^Abstract$|^Summary$|^Introduction$|^Conclusion$|^References$`. -/
def exactSection (cs : List Char) : Bool :=
  cs == "Abstract".data || cs == "Summary".data || cs == "Introduction".data ||
  cs == "Conclusion".data || cs == "References".data

/-- Regex `^Table\s+of\s+Contents$`. -/
def tocExact (cs : List Char) : Bool :=
  ((eatPre "Table" cs).bind (eatRun isWsCh) |>.bind (eatPre "of")
    |>.bind (eatRun isWsCh) |>.bind (eatPre "Contents") |>.bind eatEnd).isSome

/-- Regex `^Table\s+of\s+Contents$|^Acknowledgements?$|^Bibliography$`. -/
def navSection (cs : List Char) : Bool :=
  tocExact cs || cs == "Acknowledgement".data ||
  cs == "Acknowledgements".data || cs == "Bibliography".data

/-- The `strong_patterns` family, in source order. -/
def strongPat (cs : List Char) : Bool :=
  allCapsStrong cs || litNum "Chapter" cs || litNum "Section" cs ||
  litNum "Part" cs || romanHeading cs || matchAppendix cs ||
  exactSection cs || navSection cs

/-! ### Medium heading patterns (`medium_patterns`) -/

/-- One word of regex `[A-Z][a-z]+`. -/
def tcWordOk (w : List Char) : Bool :=
  match w with
  | c :: rest => isUpperCh c && !rest.isEmpty && rest.all isLowerCh
  | [] => false

def headWs : List Char → Bool
  | [] => false
  | c :: _ => isWsCh c

def lastWs (cs : List Char) : Bool := headWs cs.reverse

/-- Regex `^[A-Z][a-z]+(\s+[A-Z][a-z]+)*$`: a full match holds iff the
text is non-empty, has no leading or trailing whitespace, and every
whitespace-separated word matches `[A-Z][a-z]+`. -/
def titleCasePat (cs : List Char) : Bool :=
  !cs.isEmpty && !headWs cs && !lastWs cs && (splitWsL cs).all tcWordOk

/-- Regex `^[A-Z][a-z]+(\s+[a-z]+)*:$`: a terminal colon, preceded by a
run of whitespace-separated words whose first is `[A-Z][a-z]+` and whose
rest are `[a-z]+`, with no whitespace at either edge. -/
def lowerColonPat (cs : List Char) : Bool :=
  match cs.reverse with
  | ':' :: _ =>
    let body := cs.dropLast
    !body.isEmpty && !headWs body && !lastWs body &&
    (match splitWsL body with
     | w :: ws => tcWordOk w && ws.all (fun v => !v.isEmpty && v.all isLowerCh)
     | [] => false)
  | _ => false

/-- Regex `^[A-Z][^.]{8,50}$` (in `re`, `[^.]` also matches newline). -/
def capPhrase (cs : List Char) : Bool :=
  match cs with
  | c :: rest =>
    isUpperCh c && decide (8 ≤ rest.length) && decide (rest.length ≤ 50) &&
    rest.all (fun d => d ≠ '.')
  | [] => false

/-- The `medium_patterns` family, in source order. -/
def mediumPat (cs : List Char) : Bool :=
  titleCasePat cs || matchNumDotNumUpper cs || lowerColonPat cs || capPhrase cs

/-! ### Weak heading patterns (`weak_patterns`) -/

/-- Regexes `^•\s+[A-Z]`, `^o\s+[A-Z]`, `^\d+\)\s+[A-Z]`, `^[a-z]\)\s+[A-Z]`. -/
def weakPat (cs : List Char) : Bool :=
  ((eatCh '•' cs).bind (eatRun isWsCh) |>.bind (peekP isUpperCh)).isSome ||
  ((eatCh 'o' cs).bind (eatRun isWsCh) |>.bind (peekP isUpperCh)).isSome ||
  ((eatRun isDigitCh cs).bind (eatCh ')') |>.bind (eatRun isWsCh)
    |>.bind (peekP isUpperCh)).isSome ||
  ((eatIf isLowerCh cs).bind (eatCh ')') |>.bind (eatRun isWsCh)
    |>.bind (peekP isUpperCh)).isSome

/-- The final general title-case test on the word list:
`2–10 words, each word whose first character is alphabetic capitalized,
and the text does not end in a period`.  Python's Unicode
`isalpha`/`isupper` are modelled by their ASCII cores. -/
def generalOk (text : String) : Bool :=
  let words := pySplit text
  decide (words.length ≤ 10) && decide (2 ≤ words.length) &&
  words.all (fun w =>
    match w.data with
    | c :: _ => if isAlphaCh c then isUpperCh c else true
    | [] => true) &&
  !endsWithCh text '.'

/-! ## The heading classifier `is_likely_heading` -/

/-- The form-field / data-entry hard reject of `is_likely_heading`, the
disjunction in source order:  currency ending, long question, leading
`\d+[\.\,]\d+`, a date, length over 200, `^\d+\.\s+[A-Z]`, a long
colon-terminated label, or a field noun in a sub-50-character text. -/
def formFieldReject (text : String) : Bool :=
  searchCurrencyEnd text.data ||
  (endsWithCh text '?' && decide (30 < text.length)) ||
  startNumDotNum text.data ||
  searchDate text.data ||
  decide (200 < text.length) ||
  matchNumDotUpper text.data ||
  (endsWithCh text ':' && decide (25 < text.length)) ||
  (fieldNounSearch headingNouns text.data && decide (text.length < 50))

/-- Python `text.endswith(('.', ':', ';', ',', '!', '?'))`. -/
def sentenceEnd (s : String) : Bool :=
  ['.', ':', ';', ',', '!', '?'].any (endsWithCh s)

/-- The single-short-word test: `len(text.split()) == 1 and
len(text.split()[0]) <= 10`. -/
def singleShortWord (text : String) : Bool :=
  match pySplit text with
  | [w] => decide (w.length ≤ 10)
  | _ => false

/-- `PDFStructureExtractor.is_likely_heading`, returning Python's
`(is_heading, level)` pair.  The gates appear in source order; the
`strong`/`medium`/`weak` pattern loops collapse to their disjunctions
because the level returned depends only on the font delta and boldness,
not on which pattern of the family matched. -/
def is_likely_heading (text : String) (font_size : ℚ) (flags : Nat)
    (body_font_size : ℚ) : Bool × Nat :=
  if 150 < text.length then (false, 0)
  else if sentenceEnd text && decide (50 < text.length) then (false, 0)
  else
    let is_bold := flags.testBit 4
    let font_diff := font_size - body_font_size
    if (pyStrip text).length ≤ 3 then (false, 0)
    else if formFieldReject text then (false, 0)
    else if singleShortWord text && !(decide (2 ≤ font_diff) || is_bold) then
      (false, 0)
    else if strongPat text.data then
      if 4 ≤ font_diff then (true, 1)
      else if 1 ≤ font_diff ∨ is_bold = true then (true, 2)
      else (true, 3)
    else if mediumPat text.data then
      if matchNumDotNumSp text.data then (true, 2)
      else if 3 ≤ font_diff then (true, 1)
      else if 1 ≤ font_diff ∨ is_bold = true then (true, 2)
      else (true, 3)
    else if weakPat text.data && (decide (1 ≤ font_diff) || is_bold) then
      (true, 3)
    else if generalOk text && (decide (1 ≤ font_diff) || is_bold) then
      if 4 ≤ font_diff then (true, 1)
      else if 2 ≤ font_diff then (true, 2)
      else (true, 3)
    else (false, 0)

/-! ## Form-document detection patterns -/

/-- One position of regex `\bRs\.\s*\d*\s*$`: after `Rs.`, the rest of the
string must be whitespace, then digits, then whitespace. -/
def rsAmountHere (prev : Option Char) (cs : List Char) : Bool :=
  match eatPre "Rs." cs with
  | some rest =>
    !isWordOpt prev &&
    (((rest.dropWhile isWsCh).dropWhile isDigitCh).dropWhile isWsCh).isEmpty
  | none => false

/-- Regex `\bRs\.\s*\d*\s*$` via `re.search`. -/
def rsAmountSearch (cs : List Char) : Bool := scanPrev rsAmountHere none cs

/-- A run of at least five whitespace characters (`\s{5,}`). -/
def hasWsRun5 (cs : List Char) : Bool :=
  scanAny (fun t => decide (5 ≤ (t.takeWhile isWsCh).length)) cs

/-- One block's form-indicator test from `extract_text_with_structure`
(the disjunction in source order).  `.*(\.\.\.|___|\s{5,})` reduces, on
newline-free block texts, to containing `...`, `___` or five consecutive
whitespace characters. -/
def formIndicator (text : String) : Bool :=
  matchNumDotUpper text.data ||
  fieldNounSearch formNouns text.data ||
  (endsWithCh text ':' && decide (10 < text.length)) ||
  (containsSub "...".data text.data || containsSub "___".data text.data ||
    hasWsRun5 text.data) ||
  rsAmountSearch text.data ||
  ("Application form".data.isPrefixOf text.data ||
    "Form".data.isPrefixOf text.data)

/-! ## Title exclusion patterns (all matched with `re.IGNORECASE`) -/

/-- Regex `^Table\s+of\s+Contents$` on a lower-cased string. -/
def tocLower (cs : List Char) : Bool :=
  ((eatPre "table" cs).bind (eatRun isWsCh) |>.bind (eatPre "of")
    |>.bind (eatRun isWsCh) |>.bind (eatPre "contents") |>.bind eatEnd).isSome

/-- Regex `^Table\s+of\s+Contents$|^Acknowledgements?$|^References$|^Bibliography$`
(case-insensitive, so applied to the lower-cased text). -/
def navExcl (lc : List Char) : Bool :=
  tocLower lc || lc == "acknowledgement".data || lc == "acknowledgements".data ||
  lc == "references".data || lc == "bibliography".data

/-- Regex `^Page\s+\d+` on a lower-cased string. -/
def pageNumPat (lc : List Char) : Bool :=
  ((eatPre "page" lc).bind (eatRun isWsCh) |>.bind (peekP isDigitCh)).isSome

/-- Regex `^<lit>\s+\d+$` on a lower-cased string, for
`^Chapter\s+\d+$|^Section\s+\d+$|^Part\s+\d+$`. -/
def litNumFull (lit : String) (lc : List Char) : Bool :=
  ((eatPre lit lc).bind (eatRun isWsCh) |>.bind (eatRun isDigitCh)
    |>.bind eatEnd).isSome

/-- Regex `^[A-Z]{1,5}$` under `re.IGNORECASE`: one to five letters. -/
def shortAcronym (cs : List Char) : Bool :=
  decide (1 ≤ cs.length) && decide (cs.length ≤ 5) && cs.all isAlphaCh

/-- `any(re.match(pattern, clean_text, re.IGNORECASE) for pattern in
title_exclusion_patterns)`, in source order. -/
def titleExcluded (s : String) : Bool :=
  let cs := s.data
  let lc := cs.map Char.toLower
  navExcl lc || matchNumDotNumSp cs || pageNumPat lc ||
  (litNumFull "chapter" lc || litNumFull "section" lc || litNumFull "part" lc) ||
  dateAnywhere cs || shortAcronym cs

/-! ## Document model and `analyze_document_structure`

A document is the nested data `page.get_text("dict")["blocks"]` walks:
pages of text blocks, each block a list of lines, each line a list of
spans `{text, size, flags}`.  Image blocks (no `"lines"` key) are skipped
by the code without effect, so they are not represented; the unused
`bbox` field is omitted. -/

structure Span where
  text : String
  size : ℚ
  flags : Nat
deriving Repr, DecidableEq

abbrev PdfLine := List Span

abbrev PdfBlock := List PdfLine

abbrev PdfPage := List PdfBlock

abbrev Doc := List PdfPage

structure TextBlock where
  text : String
  page : Nat
  font_size : ℚ
  flags : Nat
  length : Nat
deriving Repr, DecidableEq

/-- A `font_stats` key: `(span size, span flags)`. -/
abbrev FontKey := ℚ × Nat

/-- `font_stats[font_key] = font_stats.get(font_key, 0) + len(text)` on an
insertion-ordered association list (Python dicts preserve insertion
order). -/
def bumpStat (stats : List (FontKey × Nat)) (k : FontKey) (n : Nat) :
    List (FontKey × Nat) :=
  match stats with
  | [] => [(k, n)]
  | (k', m) :: rest =>
    if k' = k then (k', m + n) :: rest else (k', m) :: bumpStat rest k n

/-- The span loop body: skip spans whose stripped text is empty, else
extend the line text, record size and flags, and bump `font_stats` by the
stripped text's length. -/
def procSpan (acc : String × List ℚ × List Nat × List (FontKey × Nat))
    (s : Span) : String × List ℚ × List Nat × List (FontKey × Nat) :=
  match acc with
  | (lt, szs, fls, st) =>
    let t := pyStrip s.text
    if t = "" then (lt, szs, fls, st)
    else (lt ++ t ++ " ", szs ++ [s.size], fls ++ [s.flags],
          bumpStat st (s.size, s.flags) t.length)

/-- The line loop body: fold the spans starting from an empty line text,
then append the stripped line text (plus a space) to the block text when
non-empty. -/
def procLine (acc : String × List ℚ × List Nat × List (FontKey × Nat))
    (line : PdfLine) : String × List ℚ × List Nat × List (FontKey × Nat) :=
  match acc with
  | (bt, szs, fls, st) =>
    match line.foldl procSpan ("", szs, fls, st) with
    | (lt, szs', fls', st') =>
      let ltt := pyStrip lt
      (if ltt = "" then bt else bt ++ ltt ++ " ", szs', fls', st')

/-- Process one layout block: `(block_text, block_font_sizes, block_flags,
font_stats)`. -/
def procBlock (st : List (FontKey × Nat)) (lines : PdfBlock) :
    String × List ℚ × List Nat × List (FontKey × Nat) :=
  lines.foldl procLine ("", [], [], st)

/-- `sum(block_font_sizes) / len(block_font_sizes) if block_font_sizes
else 12`. -/
def avgSize (szs : List ℚ) : ℚ :=
  if szs = [] then 12 else szs.sum / (szs.length : ℚ)

/-- First-occurrence de-duplication (`set(...)`, modelled in first-seen
order; no claim depends on the iteration order of the Python set). -/
def dedupFirst {α : Type} [DecidableEq α] : List α → List α
  | [] => []
  | x :: xs => x :: (dedupFirst xs).filter (fun y => y != x)

/-- Python `max(candidates, key=count)` tie-breaking: the first element
attaining the maximum wins. -/
def argmaxCount (fl : List Nat) (best : Nat) : List Nat → Nat
  | [] => best
  | y :: ys =>
    if fl.count best < fl.count y then argmaxCount fl y ys
    else argmaxCount fl best ys

/-- `max(set(block_flags), key=block_flags.count) if block_flags else 0`. -/
def mostCommonFlag (fl : List Nat) : Nat :=
  match dedupFirst fl with
  | [] => 0
  | x :: xs => argmaxCount fl x xs

/-- The page/block loop of `analyze_document_structure`: accumulate
`text_blocks` and `font_stats` over one page's blocks (`pno` is the
1-based page number). -/
def procPage (acc : List TextBlock × List (FontKey × Nat)) (pno : Nat)
    (page : PdfPage) : List TextBlock × List (FontKey × Nat) :=
  page.foldl (fun a b =>
    match a with
    | (tbs, st) =>
      match procBlock st b with
      | (bt, szs, fls, st') =>
        let btt := pyStrip bt
        if btt = "" then (tbs, st')
        else (tbs ++ [{ text := btt, page := pno, font_size := avgSize szs,
                        flags := mostCommonFlag fls, length := btt.length }],
              st')) acc

def collectBlocks (doc : Doc) : List TextBlock × List (FontKey × Nat) :=
  doc.enum.foldl (fun acc pp => procPage acc (pp.1 + 1) pp.2) ([], [])

/-- Descending insertion of one value into a descending-sorted list. -/
def insertDesc (x : ℚ) : List ℚ → List ℚ
  | [] => [x]
  | y :: ys => if y ≤ x then x :: y :: ys else y :: insertDesc x ys

/-- `sorted(…, reverse=True)`. -/
def sortDesc : List ℚ → List ℚ
  | [] => []
  | x :: xs => insertDesc x (sortDesc xs)

/-- `sorted(set(font_sizes), reverse=True)` over the `font_stats` keys. -/
def fontHierarchy (stats : List (FontKey × Nat)) : List ℚ :=
  sortDesc (dedupFirst (stats.map (fun e => e.1.1)))

/-- Python `max(font_stats.keys(), key=font_stats.get)`: first maximal
value wins, iterating keys in insertion order. -/
def argmaxStat (best : FontKey × Nat) : List (FontKey × Nat) → FontKey × Nat
  | [] => best
  | y :: ys => if best.2 < y.2 then argmaxStat y ys else argmaxStat best ys

structure Analysis where
  text_blocks : List TextBlock
  font_hierarchy : List ℚ
  body_font_size : ℚ
  font_stats : List (FontKey × Nat)
deriving Repr, DecidableEq

/-- `PDFStructureExtractor.analyze_document_structure`.  On an empty
`font_stats` the Python `max(font_stats.keys(), key=font_stats.get)`
raises `ValueError`; that failure is `none` here. -/
def analyze_document_structure (doc : Doc) : Option Analysis :=
  match collectBlocks doc with
  | (tbs, stats) =>
    match stats with
    | [] => none
    | k :: rest =>
      some { text_blocks := tbs,
             font_hierarchy := fontHierarchy (k :: rest),
             body_font_size := (argmaxStat k rest).1.1,
             font_stats := k :: rest }

/-! ## `extract_text_with_structure` -/

/-- The number of blocks whose stripped text matches a form-field
signature (`form_indicators` in the source). -/
def formIndicatorCount (tbs : List TextBlock) : Nat :=
  (tbs.filter (fun b => formIndicator (pyStrip b.text))).length

/-- `total_blocks > 0 and (form_indicators / total_blocks) > 0.4` (the
float `0.4` is the exact rational `2/5`; no realizable block count can
fall inside the rounding gap between the two). -/
def isFormDocument (tbs : List TextBlock) : Bool :=
  decide (0 < tbs.length) &&
  decide ((2 : ℚ) / 5 < (formIndicatorCount tbs : ℚ) / (tbs.length : ℚ))

structure OutlineEntry where
  level : String
  text : String
  page : Nat
deriving Repr, DecidableEq

/-- One step of the outline loop: classify the block, force non-heading
for form documents, and emit `{level := "H<level>", text, page}`. -/
def headingEntry (body : ℚ) (isForm : Bool) (b : TextBlock) :
    Option OutlineEntry :=
  let hl := is_likely_heading b.text b.font_size b.flags body
  let isH := if isForm then false else hl.1
  if isH then
    some { level := "H" ++ toString hl.2, text := b.text, page := b.page }
  else none

/-- The outline loop over the text blocks in document order. -/
def outlineOf (tbs : List TextBlock) (body : ℚ) (isForm : Bool) :
    List OutlineEntry :=
  tbs.filterMap (headingEntry body isForm)

/-- Worker for `dedupConsec`: `prev` is the word last appended to
`unique_words`. -/
def dedupConsecAux (prev : String) : List String → List String
  | [] => []
  | w :: ws =>
    if w = prev then dedupConsecAux prev ws else w :: dedupConsecAux w ws

/-- Consecutive-duplicate removal over the word list (the
`unique_words` loop: append each word unless it equals the last appended
one). -/
def dedupConsec : List String → List String
  | [] => []
  | w :: ws => w :: dedupConsecAux w ws

/-- The garbled-title repair applied to each candidate: if the text has a
space and more than four words, collapse it to its first quarter when that
quarter occurs more than once; then drop consecutive duplicate words and
re-join with single spaces. -/
def cleanTitleText (text : String) : String :=
  if text.data.contains ' ' then
    let words := pySplit text
    let ct :=
      if 4 < words.length then
        let plen := words.length / 4
        if 0 < plen then
          let fp := joinSp (words.take plen)
          if 1 < countSub fp.data text.data then fp else text
        else text
      else text
    joinSp (dedupConsec (pySplit ct))
  else text

structure TitleCand where
  text : String
  font_size : ℚ
  page : Nat
deriving Repr, DecidableEq

/-- The title-candidate pass: clean each block's stripped text and keep it
when `5 < len < 150` and no exclusion pattern matches. -/
def titleCandidatesOf (tbs : List TextBlock) : List TitleCand :=
  tbs.filterMap (fun b =>
    let ct := cleanTitleText (pyStrip b.text)
    if 5 < ct.length ∧ ct.length < 150 ∧ titleExcluded ct = false then
      some { text := ct, font_size := b.font_size, page := b.page }
    else none)

/-- The sort key comparison of `title_candidates.sort(key=lambda x:
(-x[1], x[2]))`: true when the left candidate's key is at most the right
one's. -/
def candLe (c d : TitleCand) : Bool :=
  decide (d.font_size < c.font_size ∨
    (c.font_size = d.font_size ∧ c.page ≤ d.page))

/-- Stable insertion into a `le`-sorted list (insertion before the first
element that is not `le`-smaller keeps the original order of equal keys,
matching Python's stable sort). -/
def insertLe {α : Type} (le : α → α → Bool) (x : α) : List α → List α
  | [] => [x]
  | y :: ys => if le x y then x :: y :: ys else y :: insertLe le x ys

/-- Stable insertion sort, modelling Python's stable `list.sort`. -/
def isort {α : Type} (le : α → α → Bool) : List α → List α
  | [] => []
  | x :: xs => insertLe le x (isort le xs)

/-- Python `"Foundation Level" in s`. -/
def containsFL (s : String) : Bool := containsSub "Foundation Level".data s.data

/-- Title selection from the sorted candidate list: empty list keeps the
empty title; otherwise prefer page-1 candidates, starting from the first
one and letting any of the first three that is strictly longer and
contains `"Foundation Level"` override the current best; with no page-1
candidate take the overall first. -/
def selectTitle (cands : List TitleCand) : String :=
  match cands with
  | [] => ""
  | c :: _ =>
    match cands.filter (fun x => x.page == 1) with
    | [] => c.text
    | c0 :: tl =>
      ((c0 :: tl).take 3).foldl
        (fun best cand =>
          if decide (best.length < cand.text.length) && containsFL cand.text
          then cand.text else best)
        c0.text

/-- The two title fallbacks: an empty title with a non-empty outline takes
the first H1 entry's text; a still-empty title becomes `"Document"`. -/
def fallbackTitle (t1 : String) (outline : List OutlineEntry) : String :=
  let t2 :=
    if t1 = "" ∧ outline ≠ [] then
      match outline.find? (fun e => e.level == "H1") with
      | some e => e.text
      | none => t1
    else t1
  if t2 = "" then "Document" else t2

structure ExtractionResult where
  title : String
  outline : List OutlineEntry
deriving Repr, DecidableEq

/-- Everything `extract_text_with_structure` does after
`analyze_document_structure` returns. -/
def pipelineOf (a : Analysis) : ExtractionResult :=
  let isForm := isFormDocument a.text_blocks
  let outline := outlineOf a.text_blocks a.body_font_size isForm
  let sorted := isort candLe (titleCandidatesOf a.text_blocks)
  { title := fallbackTitle (selectTitle sorted) outline, outline := outline }

/-- `PDFStructureExtractor.extract_text_with_structure`. -/
def extract_text_with_structure (doc : Doc) : Option ExtractionResult :=
  (analyze_document_structure doc).map pipelineOf

/-- `PDFStructureExtractor.extract_pdf_data`: repackages the title and
outline of `extract_text_with_structure` (the challenge format). -/
def extract_pdf_data (doc : Doc) : Option ExtractionResult :=
  (extract_text_with_structure doc).map
    (fun st => { title := st.title, outline := st.outline })

/-! ## Concrete example documents

Each is a single page of one-line, one-span text blocks with the given
font size and flag 0, exercising the pipeline end to end. -/

def mkBlock (t : String) (sz : ℚ) : PdfBlock :=
  [[{ text := t, size := sz, flags := 0 }]]

/-- Body prose at size 12 plus two identical `Alpha Beta` heading blocks
at size 16 (their font key totals 20 characters, the body key 22, so the
body font size is 12). -/
def exDoc1 : Doc :=
  [[mkBlock "aaa bb ccc dd ee ff gg" 12,
    mkBlock "Alpha Beta" 16,
    mkBlock "Alpha Beta" 16]]

/-- Exactly two of five blocks are form indicators (40%), one block is a
clear heading. -/
def exDoc4 : Doc :=
  [[mkBlock "1. Name" 12,
    mkBlock "2. Date" 12,
    mkBlock "aaa bb ccc dd ee ff gg" 12,
    mkBlock "Alpha Beta" 16,
    mkBlock "hh ii jj kk ll mm nn" 12]]

/-- All three blocks are form indicators (100% > 40%). -/
def exDoc4b : Doc :=
  [[mkBlock "1. Name" 12, mkBlock "2. Date" 12, mkBlock "3. Address" 12]]

/-- One short block: no title candidate qualifies and nothing classifies
as a heading. -/
def exDoc6 : Doc := [[mkBlock "hello" 12]]

/-- Size 16 occurs in a single span, size 12 carries the body volume. -/
def exDoc7 : Doc :=
  [[mkBlock "aaaa bb cc" 12, mkBlock "Hello" 16]]

def exDoc8 : Doc := [[mkBlock "Hello World" 12]]

def defaultAnalysis : Analysis :=
  { text_blocks := [], font_hierarchy := [], body_font_size := 12,
    font_stats := [] }

def defaultResult : ExtractionResult := { title := "", outline := [] }

/-! ## Helper lemmas about the classifier -/

/-- Any text that clears the first three gates but hits the form-field
hard reject classifies as a non-heading, whatever the font and flags. -/
theorem hard_reject_classifies_false (text : String) (font_size : ℚ)
    (flags : Nat) (body : ℚ)
    (h1 : ¬ 150 < text.length)
    (h2 : (sentenceEnd text && decide (50 < text.length)) = false)
    (h3 : ¬ (pyStrip text).length ≤ 3)
    (h4 : formFieldReject text = true) :
    is_likely_heading text font_size flags body = (false, 0) := by
  simp only [is_likely_heading]
  rw [if_neg h1, if_neg (by simp [h2]), if_neg h3, if_pos h4]

/-- The empty text never classifies as a heading (gate three). -/
theorem heading_of_empty (font_size : ℚ) (flags : Nat) (body : ℚ) :
    is_likely_heading "" font_size flags body = (false, 0) := by
  simp only [is_likely_heading]
  rw [if_neg (by decide), if_neg (by decide), if_pos (by decide)]

/-! ## Helper lemmas about the pipeline -/

theorem extract_eq_of_analyze (doc : Doc) (a : Analysis)
    (h : analyze_document_structure doc = some a) :
    extract_text_with_structure doc = some (pipelineOf a) := by
  simp [extract_text_with_structure, h]

theorem extract_inv (doc : Doc) (a : Analysis) (r : ExtractionResult)
    (ha : analyze_document_structure doc = some a)
    (hr : extract_text_with_structure doc = some r) :
    r = pipelineOf a := by
  rw [extract_eq_of_analyze doc a ha] at hr
  exact (Option.some_inj.mp hr).symm

theorem pipelineOf_outline (a : Analysis) :
    (pipelineOf a).outline =
      outlineOf a.text_blocks a.body_font_size (isFormDocument a.text_blocks) :=
  rfl

theorem pipelineOf_title (a : Analysis) :
    (pipelineOf a).title =
      fallbackTitle (selectTitle (isort candLe (titleCandidatesOf a.text_blocks)))
        (outlineOf a.text_blocks a.body_font_size (isFormDocument a.text_blocks)) :=
  rfl

/-- For a form document every block is forced to non-heading. -/
theorem headingEntry_form (body : ℚ) (b : TextBlock) :
    headingEntry body true b = none := rfl

theorem outlineOf_form (tbs : List TextBlock) (body : ℚ) :
    outlineOf tbs body true = [] := by
  induction tbs with
  | nil => rfl
  | cons b bs ih =>
    simp only [outlineOf, List.filterMap_cons, headingEntry_form] at *
    exact ih

/-- For a non-form document, `headingEntry` is the classifier's verdict. -/
theorem headingEntry_nonform (body : ℚ) (b : TextBlock) :
    headingEntry body false b =
      (if (is_likely_heading b.text b.font_size b.flags body).1 = true then
        some { level :=
                 "H" ++ toString (is_likely_heading b.text b.font_size b.flags body).2,
               text := b.text, page := b.page }
      else none) := rfl

/-- The outline of a non-form document is exactly the classified heading
blocks, mapped in order; nothing is de-duplicated or excluded. -/
theorem outlineOf_no_dedup (tbs : List TextBlock) (body : ℚ) :
    outlineOf tbs body false =
      (tbs.filter
        (fun b => (is_likely_heading b.text b.font_size b.flags body).1)).map
        (fun b =>
          { level :=
              "H" ++ toString (is_likely_heading b.text b.font_size b.flags body).2,
            text := b.text, page := b.page }) := by
  induction tbs with
  | nil => rfl
  | cons b bs ih =>
    simp only [outlineOf, List.filterMap_cons, List.filter_cons] at *
    cases hb : (is_likely_heading b.text b.font_size b.flags body).1 with
    | true => simp [headingEntry_nonform, hb, ih]
    | false => simp [headingEntry_nonform, hb, ih]

theorem ite_default_ne (s : String) :
    (if s = "" then "Document" else s) ≠ "" := by
  split
  · decide
  · assumption

theorem fallbackTitle_ne_empty (t : String) (o : List OutlineEntry) :
    fallbackTitle t o ≠ "" := by
  simp only [fallbackTitle]
  exact ite_default_ne _

/-- With an empty selected title, the final title is the first H1 entry's
text when the outline has one (and that text is non-empty), else the
literal `Document`. -/
theorem fallbackTitle_empty (o : List OutlineEntry)
    (ho : ∀ e ∈ o, e.text ≠ "") :
    fallbackTitle "" o =
      (match o.find? (fun e => e.level == "H1") with
       | some e => e.text
       | none => "Document") := by
  cases o with
  | nil => rfl
  | cons e es =>
    simp only [fallbackTitle]
    rw [if_pos (show True ∧ e :: es ≠ [] from ⟨trivial, by simp⟩)]
    cases hf : (e :: es).find? (fun x => x.level == "H1") with
    | none => simp
    | some e0 =>
      have hne := ho e0 (List.mem_of_find?_eq_some hf)
      simp [hne]

/-- Every outline entry's text is non-empty (the classifier rejects any
text of stripped length at most three). -/
theorem outline_text_ne (tbs : List TextBlock) (body : ℚ) (f : Bool) :
    ∀ e ∈ outlineOf tbs body f, e.text ≠ "" := by
  intro e he
  rcases List.mem_filterMap.mp he with ⟨b, _, hbe⟩
  cases f with
  | true => rw [headingEntry_form] at hbe; cases hbe
  | false =>
    rw [headingEntry_nonform] at hbe
    by_cases hh : (is_likely_heading b.text b.font_size b.flags body).1 = true
    · rw [if_pos hh] at hbe
      obtain rfl := Option.some_inj.mp hbe
      intro h0
      have h0' : b.text = "" := h0
      rw [h0', heading_of_empty] at hh
      exact absurd hh (by decide)
    · rw [if_neg hh] at hbe; cases hbe

/-! ## Claim theorems (classifier level) -/

/-- C2: the hard reject `^\d+[\.\,]\d+` fires on every `N.N …` text, so
`2.1 Intended Audience` classifies as a non-heading at every font size,
boldness and body size — contradicting both the claim and the code's own
`Always H2 for section numbers` branch, which is unreachable for such
texts. -/
theorem c2_section_number_always_rejected (font_size body_font_size : ℚ)
    (flags : Nat) :
    is_likely_heading "2.1 Intended Audience" font_size flags body_font_size =
      (false, 0) :=
  hard_reject_classifies_false _ _ _ _ (by decide) (by decide) (by decide)
    (by decide)

/-- C3: on a zero-page document the font statistics are empty, so
`analyze_document_structure` hits `max()` on an empty sequence
(`ValueError`, `none` here) and the pipeline fails instead of returning
the default `{"title": "Document", "outline": []}`. -/
theorem c3_empty_document_fails :
    analyze_document_structure ([] : Doc) = none ∧
    extract_pdf_data ([] : Doc) = none :=
  ⟨rfl, rfl⟩

/-- C5 counterexample: `Chapter 1 Name` matches the structural
`^Chapter\s+\d+` strong pattern and its font exceeds the body size by 4,
yet the field-noun hard reject (`\bName\b` with length below 50) fires
first and the classifier returns a non-heading. -/
theorem c5_counterexample :
    strongPat "Chapter 1 Name".data = true ∧
    (4 : ℚ) ≤ 16 - 12 ∧
    is_likely_heading "Chapter 1 Name" 16 0 12 = (false, 0) :=
  ⟨by decide, by with_unfolding_all decide, by decide⟩

/-- C5 amended: a block whose font size exceeds the body size by at least
4 and whose text matches an ALL-CAPS or structural strong pattern
classifies as H1, provided the text is not first caught by the hard
rejects (length, sentence punctuation, minimum length, form-field
signatures). -/
theorem c5_amended_strong_pattern_h1 (text : String) (font_size : ℚ)
    (flags : Nat) (body_font_size : ℚ)
    (h1 : ¬ 150 < text.length)
    (h2 : (sentenceEnd text && decide (50 < text.length)) = false)
    (h3 : ¬ (pyStrip text).length ≤ 3)
    (h4 : formFieldReject text = false)
    (h5 : strongPat text.data = true)
    (h6 : (4 : ℚ) ≤ font_size - body_font_size) :
    is_likely_heading text font_size flags body_font_size = (true, 1) := by
  have h2le : decide ((2 : ℚ) ≤ font_size - body_font_size) = true :=
    decide_eq_true (le_trans (by norm_num) h6)
  simp only [is_likely_heading]
  rw [if_neg h1, if_neg (by simp [h2]), if_neg h3, if_neg (by simp [h4]),
      if_neg (by simp [h2le]), if_pos h5, if_pos h6]

/-- C5 witness: `INTRODUCTION TO DOGS` at font 16 over body 12 passes all
hard rejects, matches the ALL-CAPS strong pattern and classifies as H1. -/
theorem c5_witness :
    strongPat "INTRODUCTION TO DOGS".data = true ∧
    is_likely_heading "INTRODUCTION TO DOGS" 16 0 12 = (true, 1) :=
  ⟨by decide,
   c5_amended_strong_pattern_h1 "INTRODUCTION TO DOGS" 16 0 12 (by decide)
     (by decide) (by decide) (by decide) (by decide)
     (by with_unfolding_all decide)⟩

/-- C9: a block whose text splits to a single word of at most ten
characters (and more than three) classifies as a non-heading unless its
font exceeds the body size by at least 2 or it is bold. -/
theorem c9_single_short_word_needs_support (text w : String)
    (font_size body_font_size : ℚ) (flags : Nat)
    (hsplit : pySplit text = [w]) (hgt : 3 < w.length) (hle : w.length ≤ 10)
    (hdiff : ¬ (2 : ℚ) ≤ font_size - body_font_size)
    (hbold : flags.testBit 4 = false) :
    (is_likely_heading text font_size flags body_font_size).1 = false := by
  have hcond : (singleShortWord text &&
      !(decide (2 ≤ font_size - body_font_size) || flags.testBit 4)) = true := by
    simp [singleShortWord, hsplit, hle, hbold, hdiff]
  simp only [is_likely_heading]
  split_ifs <;> rfl

/-- C9 witness: `Hello` (five characters, one word) at body font size and
regular weight is not a heading. -/
theorem c9_witness :
    pySplit "Hello" = ["Hello"] ∧
    (is_likely_heading "Hello" 12 0 12).1 = false :=
  ⟨by decide,
   c9_single_short_word_needs_support "Hello" "Hello" 12 12 0 (by decide)
     (by decide) (by decide) (by with_unfolding_all decide) (by decide)⟩

/-! ## Claim theorems (pipeline level) -/

def aEx1 : Analysis := (analyze_document_structure exDoc1).getD defaultAnalysis

def rEx1 : ExtractionResult :=
  (extract_text_with_structure exDoc1).getD defaultResult

/-- C1 counterexample: on `exDoc1` the produced outline carries the same
text twice and the selected title is itself an outline entry — the outline
loop neither de-duplicates nor excludes the title. -/
theorem c1_counterexample :
    extract_text_with_structure exDoc1 = some rEx1 ∧
    rEx1.title = "Alpha Beta" ∧
    rEx1.outline.map OutlineEntry.text = ["Alpha Beta", "Alpha Beta"] ∧
    ¬ (∀ r, extract_text_with_structure exDoc1 = some r →
        (r.outline.map OutlineEntry.text).Nodup ∧
        r.title ∉ r.outline.map OutlineEntry.text) := by
  have h1 : extract_text_with_structure exDoc1 = some rEx1 := by
    with_unfolding_all rfl
  have h3 : rEx1.outline.map OutlineEntry.text = ["Alpha Beta", "Alpha Beta"] := by
    with_unfolding_all rfl
  refine ⟨h1, by with_unfolding_all rfl, h3, fun hcl => ?_⟩
  rcases hcl rEx1 h1 with ⟨hnd, _⟩
  rw [h3] at hnd
  exact absurd hnd (by decide)

/-- C1 amended: for a non-form document the outline is exactly the
sequence of classified heading blocks in document order, with each text
verbatim; exact-duplicate texts are retained and the selected title is not
excluded. -/
theorem c1_amended_no_dedup (doc : Doc) (a : Analysis) (r : ExtractionResult)
    (ha : analyze_document_structure doc = some a)
    (hr : extract_text_with_structure doc = some r)
    (hform : isFormDocument a.text_blocks = false) :
    r.outline =
      (a.text_blocks.filter
        (fun b => (is_likely_heading b.text b.font_size b.flags
          a.body_font_size).1)).map
        (fun b =>
          { level := "H" ++ toString (is_likely_heading b.text b.font_size
              b.flags a.body_font_size).2,
            text := b.text, page := b.page }) := by
  obtain rfl := extract_inv doc a r ha hr
  rw [pipelineOf_outline, hform, outlineOf_no_dedup]

/-- C1 witness: the amended statement instantiated on `exDoc1`. -/
theorem c1_witness :
    rEx1.outline =
      (aEx1.text_blocks.filter
        (fun b => (is_likely_heading b.text b.font_size b.flags
          aEx1.body_font_size).1)).map
        (fun b =>
          { level := "H" ++ toString (is_likely_heading b.text b.font_size
              b.flags aEx1.body_font_size).2,
            text := b.text, page := b.page }) :=
  c1_amended_no_dedup exDoc1 aEx1 rEx1 (by with_unfolding_all rfl)
    (by with_unfolding_all rfl) (by with_unfolding_all rfl)

/-- C4 counterexample: in `exDoc4` exactly two of five blocks (40%) match
a form-field signature, yet the document is not treated as a form — the
threshold is strict — and the outline is non-empty. -/
theorem c4_counterexample :
    (analyze_document_structure exDoc4).map
        (fun a => (formIndicatorCount a.text_blocks, a.text_blocks.length)) =
      some (2, 5) ∧
    (extract_text_with_structure exDoc4).map (fun r => r.outline) ≠
      some [] := by
  refine ⟨by with_unfolding_all rfl, ?_⟩
  with_unfolding_all decide

/-- C4 amended: when strictly more than 40% of the text blocks match a
form-field signature the document is classified as a form and the outline
is the empty sequence. -/
theorem c4_amended_strict_threshold (doc : Doc) (a : Analysis)
    (r : ExtractionResult)
    (ha : analyze_document_structure doc = some a)
    (hr : extract_text_with_structure doc = some r)
    (hpos : 0 < a.text_blocks.length)
    (hfrac : (2 : ℚ) / 5 <
      (formIndicatorCount a.text_blocks : ℚ) / (a.text_blocks.length : ℚ)) :
    r.outline = [] := by
  have hform : isFormDocument a.text_blocks = true := by
    unfold isFormDocument
    rw [decide_eq_true hpos, decide_eq_true hfrac]
    rfl
  obtain rfl := extract_inv doc a r ha hr
  rw [pipelineOf_outline, hform, outlineOf_form]

def aEx4b : Analysis := (analyze_document_structure exDoc4b).getD defaultAnalysis

def rEx4b : ExtractionResult :=
  (extract_text_with_structure exDoc4b).getD defaultResult

/-- C4 witness: all three blocks of `exDoc4b` are form indicators, so the
outline is empty. -/
theorem c4_witness : rEx4b.outline = [] :=
  c4_amended_strict_threshold exDoc4b aEx4b rEx4b (by with_unfolding_all rfl)
    (by with_unfolding_all rfl) (by with_unfolding_all decide)
    (by with_unfolding_all decide)

/-- C6: the returned title is never empty, and when no title candidate
qualifies it is the first H1 outline entry's text if one exists, else the
literal `Document`. -/
theorem c6_title_never_empty (doc : Doc) (a : Analysis) (r : ExtractionResult)
    (ha : analyze_document_structure doc = some a)
    (hr : extract_text_with_structure doc = some r) :
    r.title ≠ "" ∧
    (titleCandidatesOf a.text_blocks = [] →
      r.title =
        (match (outlineOf a.text_blocks a.body_font_size
            (isFormDocument a.text_blocks)).find?
            (fun e => e.level == "H1") with
         | some e => e.text
         | none => "Document")) := by
  obtain rfl := extract_inv doc a r ha hr
  constructor
  · rw [pipelineOf_title]; exact fallbackTitle_ne_empty _ _
  · intro hc
    rw [pipelineOf_title, hc]
    exact fallbackTitle_empty _ (outline_text_ne _ _ _)

def aEx6 : Analysis := (analyze_document_structure exDoc6).getD defaultAnalysis

def rEx6 : ExtractionResult :=
  (extract_text_with_structure exDoc6).getD defaultResult

/-- C6 witness: `exDoc6` yields no title candidate and no heading, and its
title is the non-empty literal `Document`. -/
theorem c6_witness :
    rEx6.title ≠ "" ∧
    (titleCandidatesOf aEx6.text_blocks = [] →
      rEx6.title =
        (match (outlineOf aEx6.text_blocks aEx6.body_font_size
            (isFormDocument aEx6.text_blocks)).find?
            (fun e => e.level == "H1") with
         | some e => e.text
         | none => "Document")) :=
  c6_title_never_empty exDoc6 aEx6 rEx6 (by with_unfolding_all rfl)
    (by with_unfolding_all rfl)

/-- C8: the pipeline is a function of the document alone — two runs on the
same input return the same title and the same outline in the same order. -/
theorem c8_deterministic (doc : Doc) (r₁ r₂ : ExtractionResult)
    (h₁ : extract_pdf_data doc = some r₁)
    (h₂ : extract_pdf_data doc = some r₂) :
    r₁.title = r₂.title ∧ r₁.outline = r₂.outline := by
  rw [h₁] at h₂
  obtain rfl := Option.some_inj.mp h₂
  exact ⟨rfl, rfl⟩

def rEx8 : ExtractionResult := (extract_pdf_data exDoc8).getD defaultResult

/-- C8 witness: two runs on `exDoc8` agree. -/
theorem c8_witness : rEx8.title = rEx8.title ∧ rEx8.outline = rEx8.outline :=
  c8_deterministic exDoc8 rEx8 rEx8 (by with_unfolding_all rfl)
    (by with_unfolding_all rfl)

/-! ## Sortedness lemmas for the font hierarchy (claim C7) -/

theorem mem_dedupFirst {α : Type} [DecidableEq α] {q : α} {l : List α} :
    q ∈ dedupFirst l ↔ q ∈ l := by
  induction l with
  | nil => simp [dedupFirst]
  | cons x xs ih =>
    simp only [dedupFirst, List.mem_cons, List.mem_filter, ih, bne_iff_ne]
    constructor
    · rintro (rfl | ⟨hq, _⟩)
      · exact Or.inl rfl
      · exact Or.inr hq
    · rintro (rfl | hq)
      · exact Or.inl rfl
      · by_cases hx : q = x
        · exact Or.inl hx
        · exact Or.inr ⟨hq, hx⟩

theorem nodup_dedupFirst {α : Type} [DecidableEq α] (l : List α) :
    (dedupFirst l).Nodup := by
  induction l with
  | nil => simp [dedupFirst]
  | cons x xs ih =>
    refine List.Pairwise.cons ?_ (List.Nodup.filter _ ih)
    intro y hy
    rcases List.mem_filter.mp hy with ⟨_, hne⟩
    exact (bne_iff_ne.mp hne).symm

theorem mem_insertDesc {x y : ℚ} {l : List ℚ} :
    y ∈ insertDesc x l ↔ y = x ∨ y ∈ l := by
  induction l with
  | nil => simp [insertDesc]
  | cons z zs ih =>
    simp only [insertDesc]
    split
    · simp [List.mem_cons]
    · simp only [List.mem_cons, ih]
      tauto

theorem mem_sortDesc {q : ℚ} {l : List ℚ} : q ∈ sortDesc l ↔ q ∈ l := by
  induction l with
  | nil => simp [sortDesc]
  | cons x xs ih => simp [sortDesc, mem_insertDesc, ih]

theorem pairwise_gt_insertDesc {x : ℚ} {l : List ℚ}
    (hl : l.Pairwise (· > ·)) (hx : x ∉ l) :
    (insertDesc x l).Pairwise (· > ·) := by
  induction l with
  | nil => simp [insertDesc]
  | cons z zs ih =>
    rcases List.pairwise_cons.mp hl with ⟨hz, hzs⟩
    simp only [insertDesc]
    split
    · rename_i hle
      refine List.pairwise_cons.mpr ⟨?_, hl⟩
      intro b hb
      rcases List.mem_cons.mp hb with rfl | hbz
      · exact lt_of_le_of_ne hle (fun h => hx (by simp [h]))
      · exact lt_of_lt_of_le (hz b hbz) hle
    · rename_i hgt
      refine List.pairwise_cons.mpr ⟨?_, ih hzs (fun h => hx (by simp [h]))⟩
      intro b hb
      rcases mem_insertDesc.mp hb with rfl | hbz
      · exact lt_of_not_ge hgt
      · exact hz b hbz

theorem pairwise_gt_sortDesc {l : List ℚ} (hl : l.Nodup) :
    (sortDesc l).Pairwise (· > ·) := by
  induction l with
  | nil => simp [sortDesc]
  | cons x xs ih =>
    rcases List.pairwise_cons.mp hl with ⟨hx, hxs⟩
    exact pairwise_gt_insertDesc (ih hxs)
      (fun h => hx x (mem_sortDesc.mp h) rfl)

/-- The font hierarchy is the strictly descending enumeration of exactly
the font sizes that occur among the `font_stats` keys. -/
theorem fontHierarchy_spec (stats : List (FontKey × Nat)) :
    (fontHierarchy stats).Pairwise (· > ·) ∧
    ∀ q : ℚ, q ∈ fontHierarchy stats ↔ ∃ e ∈ stats, e.1.1 = q := by
  constructor
  · exact pairwise_gt_sortDesc (nodup_dedupFirst _)
  · intro q
    rw [fontHierarchy, mem_sortDesc, mem_dedupFirst, List.mem_map]

/-- Inversion of `analyze_document_structure`: a successful analysis
exposes its `font_hierarchy` and `font_stats` fields. -/
theorem analyze_inv (doc : Doc) (a : Analysis)
    (ha : analyze_document_structure doc = some a) :
    a.font_hierarchy = fontHierarchy a.font_stats := by
  unfold analyze_document_structure at ha
  rcases hcb : collectBlocks doc with ⟨tbs, stats⟩
  rw [hcb] at ha
  cases stats with
  | nil => cases ha
  | cons k rest =>
    obtain rfl := Option.some_inj.mp ha
    rfl

/-- C7 counterexample: in `exDoc7` the size 16 is used by a single span
and the hierarchy also contains the body size 12 itself, so the computed
list `[16, 12]` is not the claimed `strictly greater than body, used more
than once` selection (which would exclude 12, and 16 as well). -/
theorem c7_counterexample :
    (analyze_document_structure exDoc7).map
        (fun a => (a.font_hierarchy, a.body_font_size, a.font_stats)) =
      some ([16, 12], 12, [((12, 0), 10), ((16, 0), 5)]) ∧
    ¬ (∀ q ∈ [(16 : ℚ), 12], (12 : ℚ) < q) := by
  refine ⟨by with_unfolding_all rfl, fun h => ?_⟩
  exact absurd (h 12 (by simp)) (lt_irrefl 12)

/-- C7 amended: the font hierarchy is the strictly descending enumeration
of exactly the distinct font sizes occurring among the `font_stats` keys —
with no filtering by the body font size and no more-than-once usage
requirement. -/
theorem c7_amended_unfiltered_hierarchy (doc : Doc) (a : Analysis)
    (ha : analyze_document_structure doc = some a) :
    a.font_hierarchy.Pairwise (· > ·) ∧
    ∀ q : ℚ, q ∈ a.font_hierarchy ↔ ∃ e ∈ a.font_stats, e.1.1 = q := by
  rw [analyze_inv doc a ha]
  exact fontHierarchy_spec a.font_stats

def aEx7 : Analysis := (analyze_document_structure exDoc7).getD defaultAnalysis

/-- C7 witness: the amended statement instantiated on `exDoc7`. -/
theorem c7_witness :
    aEx7.font_hierarchy.Pairwise (· > ·) ∧
    ∀ q : ℚ, q ∈ aEx7.font_hierarchy ↔ ∃ e ∈ aEx7.font_stats, e.1.1 = q :=
  c7_amended_unfiltered_hierarchy exDoc7 aEx7 (by with_unfolding_all rfl)

/-! ## The page-1 override fold (claim C10) -/

/-- The override loop either keeps its starting title or returns the text
of some candidate in the scanned list that contains `Foundation Level` and
is strictly longer than the start. -/
theorem fl_fold (l : List TitleCand) (b : String) :
    l.foldl (fun best cand =>
        if decide (best.length < cand.text.length) && containsFL cand.text
        then cand.text else best) b = b ∨
    ∃ c ∈ l, containsFL c.text = true ∧ b.length < c.text.length ∧
      l.foldl (fun best cand =>
        if decide (best.length < cand.text.length) && containsFL cand.text
        then cand.text else best) b = c.text := by
  induction l generalizing b with
  | nil => exact Or.inl rfl
  | cons c cs ih =>
    simp only [List.foldl_cons]
    by_cases hc : (decide (b.length < c.text.length) && containsFL c.text) = true
    · rw [if_pos hc]
      rcases (Bool.and_eq_true _ _).mp hc with ⟨hlen, hfl⟩
      have hlen' := of_decide_eq_true hlen
      rcases ih c.text with h | ⟨d, hd, hdfl, hdlen, heq⟩
      · exact Or.inr ⟨c, List.mem_cons_self c cs, hfl, hlen', h⟩
      · exact Or.inr ⟨d, List.mem_cons_of_mem _ hd, hdfl,
          lt_trans hlen' hdlen, heq⟩
    · rw [if_neg hc]
      rcases ih b with h | ⟨d, hd, hdfl, hdlen, heq⟩
      · exact Or.inl h
      · exact Or.inr ⟨d, List.mem_cons_of_mem _ hd, hdfl, hdlen, heq⟩

/-- Without a `Foundation Level` candidate the override loop is the
identity. -/
theorem fl_fold_none (l : List TitleCand) (b : String)
    (h : ∀ c ∈ l, containsFL c.text = false) :
    l.foldl (fun best cand =>
        if decide (best.length < cand.text.length) && containsFL cand.text
        then cand.text else best) b = b := by
  induction l generalizing b with
  | nil => rfl
  | cons c cs ih =>
    simp only [List.foldl_cons]
    rw [if_neg (by simp [h c (List.mem_cons_self c cs)])]
    exact ih b (fun d hd => h d (List.mem_cons_of_mem _ hd))

/-- C10: with page-1 candidates present, the selected title is the first
page-1 candidate's text unless some candidate among the first three page-1
candidates contains the literal substring `Foundation Level` and is
strictly longer, in which case the selected title is such a candidate's
text; in particular, when no such candidate contains `Foundation Level`,
no override of any kind is applied. -/
theorem c10_foundation_level_override (cands : List TitleCand)
    (c0 : TitleCand) (tl : List TitleCand)
    (hne : cands ≠ [])
    (hp1 : cands.filter (fun x => x.page == 1) = c0 :: tl) :
    (selectTitle cands = c0.text ∨
      ∃ c ∈ (c0 :: tl).take 3, containsFL c.text = true ∧
        c0.text.length < c.text.length ∧ selectTitle cands = c.text) ∧
    ((∀ c ∈ (c0 :: tl).take 3, containsFL c.text = false) →
      selectTitle cands = c0.text) := by
  cases cands with
  | nil => exact absurd rfl hne
  | cons c cs =>
    simp only [selectTitle]
    rw [hp1]
    exact ⟨fl_fold _ _, fun hnone => fl_fold_none _ _ hnone⟩

def candsEx10 : List TitleCand :=
  [{ text := "Alpha Beta Gamma", font_size := 14, page := 1 },
   { text := "Alpha Foundation Level Extensions", font_size := 12, page := 1 }]

/-- C10 witness: the override applies on a two-candidate page-1 list whose
second entry contains `Foundation Level` and is longer. -/
theorem c10_witness :
    (selectTitle candsEx10 = "Alpha Beta Gamma" ∨
      ∃ c ∈ (({ text := "Alpha Beta Gamma", font_size := 14, page := 1 } : TitleCand) ::
          [({ text := "Alpha Foundation Level Extensions", font_size := 12,
              page := 1 } : TitleCand)]).take 3,
        containsFL c.text = true ∧
        ("Alpha Beta Gamma" : String).length < c.text.length ∧
        selectTitle candsEx10 = c.text) ∧
    ((∀ c ∈ (({ text := "Alpha Beta Gamma", font_size := 14, page := 1 } : TitleCand) ::
          [({ text := "Alpha Foundation Level Extensions", font_size := 12,
              page := 1 } : TitleCand)]).take 3,
        containsFL c.text = false) →
      selectTitle candsEx10 = "Alpha Beta Gamma") :=
  c10_foundation_level_override candsEx10
    { text := "Alpha Beta Gamma", font_size := 14, page := 1 }
    [{ text := "Alpha Foundation Level Extensions", font_size := 12, page := 1 }]
    (by with_unfolding_all decide) (by with_unfolding_all rfl)

end PDFX
